import Mathlib

/-!
Shallow embedding of the ismns-backend quiz service (Flask + SQLAlchemy,
`src/app.py` and `src/db.py`) and proofs about its attempt/invite lifecycle,
score computation, LLM-output extraction and candidate-facing sanitization.

Rows of the six ORM tables become Lean structures; the database becomes a
`Store` of row lists; each HTTP handler becomes a pure function from its
parsed inputs and the store to a response value and an updated store.
Timestamps are modelled as integer seconds; fresh UUIDs are threaded in as
explicit parameters; the LLM call is an explicit `Except`-valued input, the
way the handlers treat it (any exception from the chain is caught and turned
into a 502).
-/

namespace Ismns

/-- Row of table `qcms` (db.py, class Qcm). `skills_json` is kept as the
decoded list rather than its JSON serialization. -/
structure Qcm where
  id : String
  language : String
  job_description : String
  status : String
  skills_json : List String
  share_token : Option String
deriving DecidableEq

/-- Row of table `questions` (db.py, class Question). -/
structure Question where
  id : String
  qcm_id : String
  skill : String
  text : String
  explanation : String
  locked : Bool
deriving DecidableEq

/-- Row of table `options` (db.py, class Option); named `OptionRow` because
`Option` is taken in Lean. -/
structure OptionRow where
  id : String
  question_id : String
  text : String
  is_correct : Bool
deriving DecidableEq

/-- Row of table `invites` (db.py, class Invite). `expires_at` is nullable;
`max_uses = 0` means unlimited. Times are integer seconds. -/
structure Invite where
  id : String
  qcm_id : String
  token : String
  expires_at : Option Int
  max_uses : Nat
  used_count : Nat
deriving DecidableEq

/-- Row of table `attempts` (db.py, class Attempt). `started_at` is
non-nullable (server default now); `finished_at`, `score`, `duration_s`
are null until finish. -/
structure Attempt where
  id : String
  qcm_id : String
  invite_id : Option String
  candidate_email : Option String
  started_at : Int
  finished_at : Option Int
  score : Option Nat
  duration_s : Option Int
deriving DecidableEq

/-- Row of table `answers` (db.py, class Answer). -/
structure Answer where
  id : String
  attempt_id : String
  question_id : String
  option_id : String
  correct : Bool
deriving DecidableEq

/-- The relational store: one list of rows per table. -/
structure Store where
  qcms : List Qcm
  questions : List Question
  options : List OptionRow
  invites : List Invite
  attempts : List Attempt
  answers : List Answer
deriving DecidableEq

/-- Update the first element satisfying `p` (SQLAlchemy mutates the single
object returned by `.first()` / `session.get`). -/
def updateFirst {α : Type} (p : α → Bool) (f : α → α) : List α → List α
  | [] => []
  | a :: rest => if p a then f a :: rest else a :: updateFirst p f rest

/-- `qcm.questions` relationship: questions whose `qcm_id` matches. -/
def qcmQuestions (s : Store) (qid : String) : List Question :=
  s.questions.filter (fun q => q.qcm_id == qid)

/-- `question.options` relationship: options whose `question_id` matches. -/
def questionOptions (s : Store) (qid : String) : List OptionRow :=
  s.options.filter (fun o => o.question_id == qid)

/-- `session.query(Answer).filter(Answer.attempt_id == at.id).all()`. -/
def attemptAnswers (s : Store) (aid : String) : List Answer :=
  s.answers.filter (fun a => a.attempt_id == aid)

/-- Truthiness-and-comparison of `inv.expires_at and datetime.utcnow() >
inv.expires_at...`: a `None` expiry is falsy, a datetime is always truthy. -/
def pastExpiry (now : Int) : Option Int → Bool
  | some e => now > e
  | none => false

/-- db.py `invite_is_valid`: invalid when past a set expiry
(`datetime.utcnow() > expires_at`, strict), or when `max_uses` is truthy
(nonzero) and `used_count >= max_uses`; valid otherwise. -/
def invite_is_valid (now : Int) (inv : Invite) : Bool :=
  if pastExpiry now inv.expires_at then false
  else if inv.max_uses != 0 && inv.max_uses ≤ inv.used_count then false
  else true

/-- Python's `round` on the exact rational `num / den` (`den > 0`): nearest
integer, ties to even. On the values this backend produces (at most a few
thousand questions) this agrees with `round` applied to the IEEE-double
quotient, since a tie can only occur at an exactly representable
half-integer. -/
def pyRound (num den : Nat) : Nat :=
  let q := num / den
  let r := num % den
  if 2 * r < den then q
  else if den < 2 * r then q + 1
  else if q % 2 = 0 then q else q + 1

/-! ## Question extractor (app.py, generation pipeline) -/

/-- One question object of the parsed model output: each field may be
missing (`dict.get`). `correct_index` is the already-`int()`-coerced value;
`none` models an absent key (whose `int(0)` default the code applies). -/
structure RawQuestion where
  skill : Option String
  question : Option String
  options : Option (List String)
  correct_index : Option Int
  explanation : Option String
deriving DecidableEq

/-- The parsed model output for full generation: `data.get("skills")` and
`data.get("questions", [])`. -/
structure RawGen where
  skills : Option (List String)
  questions : List RawQuestion
deriving DecidableEq

/-- An option dict produced by the extractor. -/
structure GenOption where
  id : String
  text : String
  is_correct : Bool
deriving DecidableEq

/-- A normalized question dict produced by the extractor. -/
structure GenQuestion where
  id : String
  skill_tag : String
  text : String
  options : List GenOption
  explanation : String
deriving DecidableEq

/-- `for k, opt_text in enumerate((q.get("options") or [])[:4])`: truncate to
at most 4 texts, mark option `k` correct iff `k == correct_idx`. Fresh
per-option UUIDs come from `optIds`. -/
def buildOptions (optIds : Nat → String) (correct_idx : Int) (texts : List String) : List GenOption :=
  (texts.take 4).enum.map fun p =>
    { id := optIds p.1, text := p.2, is_correct := (Int.ofNat p.1 == correct_idx) }

/-- The per-question normalization shared by
`generate_qcm_from_jd_langchain` (app.py lines 116-132): default skill
`"General"`, stripped text/explanation, options built by `buildOptions`
with `correct_idx = int(q.get("correct_index", 0))`. -/
def normalize_question (qid : String) (optIds : Nat → String) (q : RawQuestion) : GenQuestion :=
  { id := qid,
    skill_tag := q.skill.getD "General",
    text := (q.question.getD "").trim,
    options := buildOptions optIds (q.correct_index.getD 0) (q.options.getD []),
    explanation := (q.explanation.getD "").trim }

/-- app.py `generate_qcm_from_jd_langchain`, with the LLM chain call made
explicit: `llm_ready` models `_LC_READY` together with a nonempty
`OPENAI_API_KEY` (`_lc_llm` returning non-None); `data` is the outcome of
`chain.invoke` (`Except.error` when it raises). Raises — returns
`.error` — when the LLM is unavailable, the call fails, or the extracted
question list is empty. -/
def generate_qcm_from_jd_langchain (llm_ready : Bool) (qIds : Nat → String)
    (optIds : Nat → Nat → String) (data : Except String RawGen) :
    Except String (List String × List GenQuestion) :=
  if !llm_ready then .error "LangChain/OpenAI not available or OPENAI_API_KEY missing"
  else
    match data with
    | .error e => .error e
    | .ok d =>
      let skills := d.skills.getD []
      let out_questions := d.questions.enum.map fun p =>
        normalize_question (qIds p.1) (optIds p.1) p.2
      if out_questions.isEmpty then .error "Model returned no questions"
      else .ok (skills, out_questions)

/-- app.py `regenerate_one_question_langchain` (lines 174-189), after the
`{"questions": [...]}` unwrapping: same option normalization, default skill
is the requested one. -/
def regenerate_one_question_langchain (llm_ready : Bool) (newQid : String)
    (optIds : Nat → String) (skill : String) (data : Except String RawQuestion) :
    Except String GenQuestion :=
  if !llm_ready then .error "LangChain/OpenAI not available or OPENAI_API_KEY missing"
  else
    match data with
    | .error e => .error e
    | .ok q =>
      .ok { id := newQid,
            skill_tag := q.skill.getD skill,
            text := (q.question.getD "").trim,
            options := buildOptions optIds (q.correct_index.getD 0) (q.options.getD []),
            explanation := (q.explanation.getD "").trim }

/-! ## Response types -/

/-- Response of `POST /qcm/create_draft_from_jd`. -/
inductive DraftResult where
  | error (status : Nat) (code msg : String)
  | ok (qcm_id : String) (skills : List String) (questions : List GenQuestion)
deriving DecidableEq

/-- Response of `POST /qcm/{id}/publish`. -/
inductive PublishResult where
  | error (status : Nat) (msg : String)
  | ok (share_url tok : String)
deriving DecidableEq

/-- A candidate-visible option: id and text only; the row type has no
is-correct field at all. -/
structure PublicOption where
  id : String
  text : String
deriving DecidableEq

/-- A candidate-visible question: no explanation field. -/
structure PublicQuestion where
  id : String
  skill_tag : String
  text : String
  options : List PublicOption
deriving DecidableEq

/-- Response of `GET /public/qcm/{token}`. -/
inductive PublicQcmResult where
  | error (status : Nat) (msg : String)
  | ok (qcm_id language : String) (questions : List PublicQuestion)
deriving DecidableEq

/-- Response of `POST /attempts/start`. -/
inductive StartResult where
  | error (status : Nat) (msg : String)
  | ok (attempt_id qcm_id language : String) (questions : List PublicQuestion)
deriving DecidableEq

/-- Response of `POST /attempts/{id}/answer`: on success just
`{"saved": true}`. -/
inductive SaveResult where
  | error (status : Nat) (msg : String)
  | saved
deriving DecidableEq

/-- Response of `POST /attempts/{id}/finish`. -/
inductive FinishResult where
  | error (status : Nat) (msg : String)
  | ok (score correct_count answered_count total_questions : Nat) (duration_s : Int)
deriving DecidableEq

/-- Response of `POST /qcm/{id}/question/{qid}/regenerate`. -/
inductive RegenResult where
  | error (status : Nat) (code msg : String)
  | ok (q : GenQuestion)
deriving DecidableEq

/-! ## Handlers (app.py routes), as pure store transformers -/

/-- app.py `make_share_token`: `secrets.token_urlsafe(24) + "_" + qcm_id`,
with the random part passed in as `secret`. -/
def make_share_token (secret : String) (qcm_id : String) : String :=
  secret ++ "_" ++ qcm_id

/-- app.py `create_draft_from_jd` (route `POST /qcm/create_draft_from_jd`).
`jd` and `language` are the body fields after the handler's `or`-defaulting
and `.strip()`; `gen` is the outcome of `generate_qcm_from_jd_langchain`;
`qcmId` is the fresh quiz UUID. -/
def create_draft_from_jd (jd language : String) (qcmId : String)
    (gen : Except String (List String × List GenQuestion)) (s : Store) :
    DraftResult × Store :=
  if jd = "" then (.error 400 "INPUT" "job_description is required", s)
  else
    match gen with
    | .error e => (.error 502 "LANGCHAIN_GENERATION_FAILED" e, s)
    | .ok (skills, qs) =>
      let qcm : Qcm :=
        { id := qcmId, language := language, job_description := jd,
          status := "draft", skills_json := skills, share_token := none }
      let newQuestions : List Question := qs.map fun q =>
        { id := q.id, qcm_id := qcmId, skill := q.skill_tag, text := q.text,
          explanation := q.explanation, locked := false }
      let newOptions : List OptionRow := qs.flatMap fun q =>
        q.options.map fun o =>
          { id := o.id, question_id := q.id, text := o.text, is_correct := o.is_correct }
      (.ok qcmId skills qs,
        { s with qcms := s.qcms ++ [qcm],
                 questions := s.questions ++ newQuestions,
                 options := s.options ++ newOptions })

/-- The status/token update a successful publish applies to the quiz row. -/
def publishMark (tok : String) (q : Qcm) : Qcm :=
  { q with status := "published", share_token := some tok }

/-- The invite row a successful publish creates: 30-day expiry, unlimited
uses (`max_uses = 0`), fresh `used_count = 0`. -/
def publishInvite (now : Int) (iid qcmId tok : String) : Invite :=
  { id := iid, qcm_id := qcmId, token := tok,
    expires_at := some (now + 30 * 86400), max_uses := 0, used_count := 0 }

/-- app.py `publish_qcm` (route `POST /qcm/{id}/publish`): only a draft quiz
can be published; publishing mints the share token, flips the status and
creates the invite (30-day expiry, unlimited uses). `secret` is the random
part of the token, `inviteId` the fresh invite UUID, `frontend` the
FRONTEND_URL. -/
def publish_qcm (now : Int) (secret inviteId frontend : String) (qcm_id : String)
    (s : Store) : PublishResult × Store :=
  match s.qcms.find? (fun q => q.id == qcm_id) with
  | none => (.error 404 "qcm not found", s)
  | some qcm =>
    if qcm.status ≠ "draft" then (.error 400 "qcm not in draft", s)
    else
      let token := make_share_token secret qcm.id
      let s' :=
        { s with qcms := updateFirst (fun q => q.id == qcm_id) (publishMark token) s.qcms,
                 invites := s.invites ++ [publishInvite now inviteId qcm.id token] }
      (.ok (frontend ++ "/invite?token=" ++ token) token, s')

/-- Candidate-visible projection of an option (`{"id": o.id, "text": o.text}`,
no `is_correct`). -/
def publicOptionOf (o : OptionRow) : PublicOption :=
  { id := o.id, text := o.text }

/-- Candidate-visible projection of a question (no `explanation`). -/
def publicQuestionOf (s : Store) (q : Question) : PublicQuestion :=
  { id := q.id, skill_tag := q.skill, text := q.text,
    options := (questionOptions s q.id).map publicOptionOf }

/-- app.py `get_public_qcm` (route `GET /public/qcm/{token}`): 404 unless the
token names a currently-valid invite and its quiz exists; otherwise the
sanitized questions. Read-only. -/
def get_public_qcm (now : Int) (token : String) (s : Store) : PublicQcmResult :=
  match s.invites.find? (fun i => i.token == token) with
  | none => .error 404 "invalid token"
  | some inv =>
    if !invite_is_valid now inv then .error 404 "invalid token"
    else
      match s.qcms.find? (fun q => q.id == inv.qcm_id) with
      | none => .error 404 "qcm not found"
      | some qcm =>
        .ok qcm.id qcm.language ((qcmQuestions s qcm.id).map (publicQuestionOf s))

/-- `inv.used_count = (inv.used_count or 0) + 1`: the used-count increment
applied by a start on a capped invite. -/
def bumpUse (i : Invite) : Invite :=
  { i with used_count := i.used_count + 1 }

/-- The in-progress attempt row a successful start creates. -/
def newAttempt (newId qcmId invId : String) (email : Option String) (now : Int) : Attempt :=
  { id := newId, qcm_id := qcmId, invite_id := some invId, candidate_email := email,
    started_at := now, finished_at := none, score := none, duration_s := none }

/-- app.py `start_attempt` (route `POST /attempts/start`): requires a
nonempty token naming a currently-valid invite whose quiz exists; creates an
in-progress attempt (fresh id `newId`, `started_at := now`) and increments
the invite's `used_count` when `max_uses` is positive. -/
def start_attempt (now : Int) (newId : String) (token : String)
    (email : Option String) (s : Store) : StartResult × Store :=
  if token = "" then (.error 400 "token required", s)
  else
    match s.invites.find? (fun i => i.token == token) with
    | none => (.error 404 "invalid token", s)
    | some inv =>
      if !invite_is_valid now inv then (.error 404 "invalid token", s)
      else
        match s.qcms.find? (fun q => q.id == inv.qcm_id) with
        | none => (.error 404 "qcm not found", s)
        | some qcm =>
          let att := newAttempt newId qcm.id inv.id email now
          let invites' :=
            if inv.max_uses > 0 then
              updateFirst (fun i => i.id == inv.id) bumpUse s.invites
            else s.invites
          (.ok newId qcm.id qcm.language ((qcmQuestions s qcm.id).map (publicQuestionOf s)),
            { s with attempts := s.attempts ++ [att], invites := invites' })

/-- The overwrite an answer upsert applies: new option choice, correctness
recomputed from that option. -/
def setAnswerChoice (oid : String) (c : Bool) (a : Answer) : Answer :=
  { a with option_id := oid, correct := c }

/-- The fresh answer row inserted when the (attempt, question) pair has no
prior answer. -/
def newAnswerRow (newId aid qid oid : String) (c : Bool) : Answer :=
  { id := newId, attempt_id := aid, question_id := qid, option_id := oid, correct := c }

/-- app.py `save_answer` (route `POST /attempts/{id}/answer`): both ids
required; the attempt must exist and not be finished; the question must
belong to the attempt's quiz and the option to the question. Upserts the
(attempt, question) answer with `correct` recomputed from the option's
is-correct flag; the response carries no correctness information. -/
def save_answer (newId : String) (attempt_id qid oid : String) (s : Store) :
    SaveResult × Store :=
  if qid = "" ∨ oid = "" then (.error 400 "question_id and option_id are required", s)
  else
    match s.attempts.find? (fun a => a.id == attempt_id) with
    | none => (.error 404 "attempt not found", s)
    | some att =>
      if att.finished_at.isSome then (.error 400 "attempt already finished", s)
      else
        match s.questions.find? (fun q => q.id == qid) with
        | none => (.error 400 "question invalid for this attempt", s)
        | some q =>
          if q.qcm_id ≠ att.qcm_id then (.error 400 "question invalid for this attempt", s)
          else
            match s.options.find? (fun o => o.id == oid) with
            | none => (.error 400 "option invalid for this question", s)
            | some opt =>
              if opt.question_id ≠ q.id then (.error 400 "option invalid for this question", s)
              else
                let is_corr := opt.is_correct
                let key : Answer → Bool := fun a => a.attempt_id == att.id && a.question_id == q.id
                let answers' :=
                  if (s.answers.find? key).isSome then
                    updateFirst key (setAnswerChoice opt.id is_corr) s.answers
                  else
                    s.answers ++ [newAnswerRow newId att.id q.id opt.id is_corr]
                (.saved, { s with answers := answers' })

/-- The fields a successful finish stamps onto the attempt row. -/
def finishStamp (now : Int) (score : Nat) (duration : Int) (a : Attempt) : Attempt :=
  { a with finished_at := some now, duration_s := some duration, score := some score }

/-- app.py `finish_attempt` (route `POST /attempts/{id}/finish`): rejects a
second finish; computes `correct_count` over the attempt's answer rows,
`score = round(100 * correct_count / total_questions)` (0 for an empty
quiz, Python banker's rounding), stamps `finished_at`, `duration_s` and
`score` on the attempt. -/
def finish_attempt (now : Int) (attempt_id : String) (s : Store) :
    FinishResult × Store :=
  match s.attempts.find? (fun a => a.id == attempt_id) with
  | none => (.error 404 "attempt not found", s)
  | some att =>
    if att.finished_at.isSome then (.error 400 "attempt already finished", s)
    else
      match s.qcms.find? (fun q => q.id == att.qcm_id) with
      | none => (.error 404 "qcm not found", s)
      | some qcm =>
        let answers := attemptAnswers s att.id
        let correct_count := (answers.filter (fun a => a.correct)).length
        let answered_count := answers.length
        let total_questions := (qcmQuestions s qcm.id).length
        let score := if total_questions > 0 then pyRound (100 * correct_count) total_questions else 0
        let duration := now - att.started_at
        let s' :=
          { s with attempts := updateFirst (fun a => a.id == attempt_id) (finishStamp now score duration) s.attempts }
        (.ok score correct_count answered_count total_questions duration, s')

/-- app.py `regenerate_question` (route
`POST /qcm/{id}/question/{qid}/regenerate`): replaces one question's skill,
text, explanation and options in place (same question id); `gen` is the
outcome of `regenerate_one_question_langchain`. -/
def regenerate_question (qcm_id qid : String) (gen : Except String GenQuestion)
    (s : Store) : RegenResult × Store :=
  match s.qcms.find? (fun q => q.id == qcm_id) with
  | none => (.error 404 "NOT_FOUND" "qcm not found", s)
  | some qcm =>
    match s.questions.find? (fun q => q.id == qid) with
    | none => (.error 404 "NOT_FOUND" "question not found", s)
    | some target =>
      if target.qcm_id ≠ qcm.id then (.error 404 "NOT_FOUND" "question not found", s)
      else
        match gen with
        | .error e => (.error 502 "LANGCHAIN_REGENERATE_FAILED" e, s)
        | .ok gq =>
          let target' : Question :=
            { target with skill := gq.skill_tag, text := gq.text,
                          explanation := gq.explanation }
          let s' :=
            { s with questions := updateFirst (fun q => q.id == qid) (fun _ => target') s.questions,
                     options := (s.options.filter (fun o => o.question_id != target.id)) ++
                       gq.options.map (fun o =>
                         { id := o.id, question_id := target.id, text := o.text,
                           is_correct := o.is_correct }) }
          (.ok { gq with id := target.id, skill_tag := target'.skill }, s')

/-- Claim C2: for every invite, `invite_is_valid` is false exactly when the
current time is strictly after a set expiry, or when `max_uses > 0` and
`used_count >= max_uses`; in every other case it is true. -/
theorem invite_is_valid_iff_spec (now : Int) (inv : Invite) :
    (invite_is_valid now inv = false ↔
      (∃ e, inv.expires_at = some e ∧ now > e) ∨
        (0 < inv.max_uses ∧ inv.max_uses ≤ inv.used_count)) ∧
    (invite_is_valid now inv = true ↔
      ((inv.expires_at = none ∨ ∃ e, inv.expires_at = some e ∧ now ≤ e) ∧
        (inv.max_uses = 0 ∨ inv.used_count < inv.max_uses))) := by
  obtain ⟨i, qi, tok, exp, mu, uc⟩ := inv
  cases exp with
  | none =>
    by_cases h2 : mu ≤ uc <;>
      by_cases h : mu = 0 <;>
        simp [invite_is_valid, pastExpiry, h, h2] <;> omega
  | some e =>
    by_cases hexp : now > e
    · simp [invite_is_valid, pastExpiry, hexp]
    · by_cases h2 : mu ≤ uc <;>
        by_cases h : mu = 0 <;>
          simp [invite_is_valid, pastExpiry, hexp, h, h2] <;> omega

/-! ## Shared lemmas -/

/-- Updating the first `p`-match of a list moves `find? p` to the updated
element, provided the update preserves `p`. -/
theorem find?_updateFirst {α : Type} (p : α → Bool) (f : α → α) (l : List α) (a : α)
    (h : l.find? p = some a) (hf : p (f a) = true) :
    (updateFirst p f l).find? p = some (f a) := by
  induction l with
  | nil => simp at h
  | cons x xs ih =>
    by_cases hx : p x
    · rw [List.find?_cons_of_pos _ hx] at h
      cases h
      simp [updateFirst, hx, List.find?_cons_of_pos _ hf]
    · rw [List.find?_cons_of_neg _ hx] at h
      simp [updateFirst, hx, List.find?_cons_of_neg _ hx, ih h]

/-! ## Demo data reused by the concrete witnesses -/

/-- Deterministic stand-ins for the per-option UUIDs. -/
def demoOptIds : Nat → String := fun n => "opt" ++ toString n

/-- A published demo quiz `qc1` with its share token set. -/
def demoQcmPublished : Qcm :=
  { id := "qc1", language := "en", job_description := "jd", status := "published",
    skills_json := ["S"], share_token := some "sec_qc1" }

/-- Ten questions `q0`..`q9` of quiz `qc1`. -/
def demoQuestions : List Question :=
  (List.range 10).map fun i =>
    { id := "q" ++ toString i, qcm_id := "qc1", skill := "S", text := "T",
      explanation := "E", locked := false }

/-- Two options per demo question: `A` correct, `B` incorrect. -/
def demoOptions : List OptionRow :=
  (List.range 10).flatMap fun i =>
    [{ id := "q" ++ toString i ++ "A", question_id := "q" ++ toString i,
       text := "A", is_correct := true },
     { id := "q" ++ toString i ++ "B", question_id := "q" ++ toString i,
       text := "B", is_correct := false }]

/-- An unlimited invite for `qc1` expiring at time 1000. -/
def demoInvite : Invite :=
  { id := "inv1", qcm_id := "qc1", token := "tok1", expires_at := some 1000,
    max_uses := 0, used_count := 0 }

/-- A capped invite for `qc1` (2 uses). -/
def demoInviteCapped : Invite :=
  { id := "inv2", qcm_id := "qc1", token := "tok2", expires_at := none,
    max_uses := 2, used_count := 0 }

/-- An in-progress attempt on `qc1`, started at time 60. -/
def demoAttempt : Attempt :=
  { id := "a1", qcm_id := "qc1", invite_id := some "inv1", candidate_email := none,
    started_at := 60, finished_at := none, score := none, duration_s := none }

/-- Eight answers of attempt `a1`: the correct option of `q0`..`q6`, the
wrong option of `q7`; `q8`, `q9` skipped. -/
def demoAnswers : List Answer :=
  ((List.range 7).map fun i =>
    { id := "ans" ++ toString i, attempt_id := "a1", question_id := "q" ++ toString i,
      option_id := "q" ++ toString i ++ "A", correct := true }) ++
  [{ id := "ans7", attempt_id := "a1", question_id := "q7", option_id := "q7B",
     correct := false }]

/-- The demo store: published quiz, two invites, one in-progress attempt
with 7 correct answers out of 8 answered over 10 questions. -/
def demoStore : Store :=
  { qcms := [demoQcmPublished], questions := demoQuestions, options := demoOptions,
    invites := [demoInvite, demoInviteCapped], attempts := [demoAttempt],
    answers := demoAnswers }

/-- The demo attempt as stamped by a first finish at time 100. -/
def demoAttemptFinished : Attempt :=
  { demoAttempt with finished_at := some 100, duration_s := some 40, score := some 70 }

/-- A draft version of the demo quiz. -/
def demoQcmDraft : Qcm :=
  { id := "qc1", language := "en", job_description := "jd", status := "draft",
    skills_json := ["S"], share_token := none }

/-- The demo store with its quiz still in draft and no invites yet. -/
def demoStoreDraft : Store :=
  { demoStore with qcms := [demoQcmDraft], invites := [], attempts := [], answers := [] }

/-- The demo store restricted to its uncapped invite. -/
def demoStoreUncapped : Store :=
  { demoStore with invites := [demoInvite] }

/-- Erase the candidate-secret bit of an option row (its is-correct flag). -/
def eraseOption (o : OptionRow) : OptionRow :=
  { o with is_correct := false }

/-- Erase the correctness flag of an answer row (derived from option
correctness). -/
def eraseAnswer (a : Answer) : Answer :=
  { a with correct := false }

/-- Erase all option-correctness information from a store. Two stores with
the same erasure differ only in which options are marked correct (and in
the answer-correctness flags derived from them). -/
def eraseStore (s : Store) : Store :=
  { s with options := s.options.map eraseOption,
           answers := s.answers.map eraseAnswer }

/-- Invariant: every invite in the store is unlimited (`max_uses = 0`), as
is the case for every invite this backend ever creates. -/
def invitesUncapped (s : Store) : Prop :=
  ∀ inv ∈ s.invites, inv.max_uses = 0

/-- Invariant: at most one answer row per (attempt, question) pair. -/
def answerKeysNodup (s : Store) : Prop :=
  (s.answers.map (fun a => (a.attempt_id, a.question_id))).Nodup

/-- The demo store with every option's is-correct flag flipped (and the
derived answer-correctness flags flipped with them): it has the same
erasure as `demoStore`. -/
def demoStoreFlipped : Store :=
  { demoStore with
      options := demoOptions.map (fun o => { o with is_correct := !o.is_correct }),
      answers := demoAnswers.map (fun a => { a with correct := !a.correct }) }

/-- A model output question carrying only 2 options and an out-of-range
`correct_index`, exercising the extractor's lack of padding and clamping. -/
def rawBadQuestion : RawQuestion :=
  { skill := some "S", question := some "Q?", options := some ["a", "b"],
    correct_index := some 5, explanation := some "E" }

/-! ## Claim theorems -/

/-- Claim C1: a finish call on an existing, unfinished attempt whose quiz
exists returns and stores `score = round(100 * correct_count /
total_questions)` (0 for an empty quiz), where `correct_count` counts the
attempt's answers with `correct = true` and `total_questions` the quiz's
questions; the response also reports `correct_count`, `answered_count` (the
number of distinct answered questions, possibly below `total_questions`)
and `total_questions`. -/
theorem finish_attempt_score_spec (now : Int) (aid : String) (s : Store)
    (att : Attempt) (qcm : Qcm)
    (hat : s.attempts.find? (fun a => a.id == aid) = some att)
    (hfin : att.finished_at = none)
    (hq : s.qcms.find? (fun q => q.id == att.qcm_id) = some qcm)
    (hnd : ((attemptAnswers s att.id).map (fun a => a.question_id)).Nodup) :
    (finish_attempt now aid s).1 =
      FinishResult.ok
        (if (qcmQuestions s qcm.id).length > 0 then
          pyRound (100 * ((attemptAnswers s att.id).filter (fun a => a.correct)).length)
            (qcmQuestions s qcm.id).length
         else 0)
        ((attemptAnswers s att.id).filter (fun a => a.correct)).length
        (((attemptAnswers s att.id).map (fun a => a.question_id)).dedup.length)
        (qcmQuestions s qcm.id).length
        (now - att.started_at) ∧
    ((finish_attempt now aid s).2.attempts.find? (fun a => a.id == aid)).map
        (fun a => a.score) =
      some (some (if (qcmQuestions s qcm.id).length > 0 then
        pyRound (100 * ((attemptAnswers s att.id).filter (fun a => a.correct)).length)
          (qcmQuestions s qcm.id).length
        else 0)) := by
  have hid : (att.id == aid) = true := by
    have := List.find?_some hat
    simpa using this
  have hded : ((attemptAnswers s att.id).map (fun a => a.question_id)).dedup.length
      = (attemptAnswers s att.id).length := by
    rw [List.Nodup.dedup hnd, List.length_map]
  unfold finish_attempt
  rw [hat]
  simp only [hfin, hq, Option.isSome_none, Bool.false_eq_true, if_false]
  constructor
  · simp only [hded]
  · have hfind := find?_updateFirst (fun a => a.id == aid)
      (finishStamp now
        (if (qcmQuestions s qcm.id).length > 0 then
          pyRound (100 * ((attemptAnswers s att.id).filter (fun a => a.correct)).length)
            (qcmQuestions s qcm.id).length
         else 0)
        (now - att.started_at))
      s.attempts att hat hid
    simp only [hfind]
    rfl

/-- Concrete witness for C1: the demo attempt (7 correct of 8 answered,
10 questions, started at 60, finished at 100) yields score 70, correct 7,
answered 8, total 10, duration 40, and stores score 70. -/
theorem finish_attempt_score_spec_witness :
    (finish_attempt 100 "a1" demoStore).1 = FinishResult.ok 70 7 8 10 40 ∧
    ((finish_attempt 100 "a1" demoStore).2.attempts.find? (fun a => a.id == "a1")).map
        (fun a => a.score) = some (some 70) := by
  have h := finish_attempt_score_spec 100 "a1" demoStore demoAttempt demoQcmPublished
    (by decide) (by decide) (by decide) (by decide)
  revert h
  decide

/-- Claim C5: a finish call on an attempt that is already finished fails
with a 400 error and leaves the store — hence the score, finished_at and
duration recorded by the first finish — unchanged. -/
theorem finish_attempt_twice_rejected (now : Int) (aid : String) (s : Store)
    (att : Attempt) (t : Int)
    (hat : s.attempts.find? (fun a => a.id == aid) = some att)
    (hfin : att.finished_at = some t) :
    finish_attempt now aid s = (FinishResult.error 400 "attempt already finished", s) := by
  unfold finish_attempt
  rw [hat]
  simp [hfin]

/-- Concrete witness for C5: finishing the demo attempt a second time (after
the finish of the C1 scenario) returns 400 and returns the store as-is. -/
theorem finish_attempt_twice_rejected_witness :
    finish_attempt 200 "a1" (finish_attempt 100 "a1" demoStore).2 =
      (FinishResult.error 400 "attempt already finished",
        (finish_attempt 100 "a1" demoStore).2) := by
  have h := finish_attempt_twice_rejected 200 "a1" (finish_attempt 100 "a1" demoStore).2
    demoAttemptFinished 100 (by decide) (by decide)
  exact h

/-- Claim C4: publish succeeds only from `draft` (a non-draft quiz gets a
400 state-conflict error and the store is untouched); a successful publish
flips the status to `published` and mints the share token, and a second
publish call on the resulting store fails with 400 and leaves the quiz's
status and share token (indeed the whole store) unchanged. -/
theorem publish_qcm_once (now now2 : Int) (sec iid fe sec2 iid2 fe2 : String)
    (qcm_id : String) (s : Store) (qcm : Qcm)
    (hfind : s.qcms.find? (fun q => q.id == qcm_id) = some qcm) :
    (qcm.status ≠ "draft" →
      publish_qcm now sec iid fe qcm_id s = (.error 400 "qcm not in draft", s)) ∧
    (qcm.status = "draft" →
      (publish_qcm now sec iid fe qcm_id s).1 =
        .ok (fe ++ "/invite?token=" ++ make_share_token sec qcm.id)
          (make_share_token sec qcm.id) ∧
      (publish_qcm now sec iid fe qcm_id s).2.qcms.find? (fun q => q.id == qcm_id) =
        some { qcm with status := "published",
                        share_token := some (make_share_token sec qcm.id) } ∧
      publish_qcm now2 sec2 iid2 fe2 qcm_id (publish_qcm now sec iid fe qcm_id s).2 =
        (.error 400 "qcm not in draft", (publish_qcm now sec iid fe qcm_id s).2)) := by
  have hid : (qcm.id == qcm_id) = true := by
    have := List.find?_some hfind
    simpa using this
  constructor
  · intro hnd
    unfold publish_qcm
    rw [hfind]
    simp [hnd]
  · intro hdraft
    have hfind' : (updateFirst (fun q => q.id == qcm_id) (publishMark (make_share_token sec qcm.id)) s.qcms).find? (fun q => q.id == qcm_id) =
        some (publishMark (make_share_token sec qcm.id) qcm) :=
      find?_updateFirst (fun q => q.id == qcm_id)
        (publishMark (make_share_token sec qcm.id)) s.qcms qcm hfind hid
    have hrun : publish_qcm now sec iid fe qcm_id s =
        (.ok (fe ++ "/invite?token=" ++ make_share_token sec qcm.id)
          (make_share_token sec qcm.id),
         { s with qcms := updateFirst (fun q => q.id == qcm_id) (publishMark (make_share_token sec qcm.id)) s.qcms,
                  invites := s.invites ++ [publishInvite now iid qcm.id (make_share_token sec qcm.id)] }) := by
      unfold publish_qcm
      rw [hfind]
      simp [hdraft]
    refine ⟨?_, ?_, ?_⟩
    · rw [hrun]
    · rw [hrun]
      simpa [publishMark] using hfind'
    · rw [hrun]
      unfold publish_qcm
      simp only [hfind']
      simp [publishMark]

/-- Concrete witness for C4: publishing the draft demo quiz succeeds and a
second publish returns 400 leaving the store unchanged. -/
theorem publish_qcm_once_witness :
    (demoQcmDraft.status ≠ "draft" →
      publish_qcm 0 "sec" "inv9" "https://f" "qc1" demoStoreDraft =
        (.error 400 "qcm not in draft", demoStoreDraft)) ∧
    (demoQcmDraft.status = "draft" →
      (publish_qcm 0 "sec" "inv9" "https://f" "qc1" demoStoreDraft).1 =
        .ok ("https://f" ++ "/invite?token=" ++ make_share_token "sec" demoQcmDraft.id)
          (make_share_token "sec" demoQcmDraft.id) ∧
      (publish_qcm 0 "sec" "inv9" "https://f" "qc1" demoStoreDraft).2.qcms.find?
          (fun q => q.id == "qc1") =
        some { demoQcmDraft with status := "published",
                                 share_token := some (make_share_token "sec" demoQcmDraft.id) } ∧
      publish_qcm 5 "s2" "inv10" "https://g" "qc1"
          (publish_qcm 0 "sec" "inv9" "https://f" "qc1" demoStoreDraft).2 =
        (.error 400 "qcm not in draft",
          (publish_qcm 0 "sec" "inv9" "https://f" "qc1" demoStoreDraft).2)) := by
  have h := publish_qcm_once 0 5 "sec" "inv9" "https://f" "s2" "inv10" "https://g"
    "qc1" demoStoreDraft demoQcmDraft (by decide)
  exact h

/-- The number of positions in `enumFrom n l` whose index equals `idx`: one
when `idx` falls in `[n, n + length)`, zero otherwise. -/
theorem countP_enumFrom_eq_idx (idx : Int) (l : List String) (n : Nat) :
    (List.enumFrom n l).countP (fun p => Int.ofNat p.1 == idx) =
      if Int.ofNat n ≤ idx ∧ idx < Int.ofNat n + Int.ofNat l.length then 1 else 0 := by
  induction l generalizing n with
  | nil =>
    simp only [List.enumFrom, List.countP_nil, List.length_nil]
    split_ifs with h
    · simp only [Int.ofNat_eq_natCast] at h
      omega
    · rfl
  | cons a t ih =>
    rw [show List.enumFrom n (a :: t) = (n, a) :: List.enumFrom (n + 1) t from rfl,
      List.countP_cons, ih (n + 1)]
    simp only [beq_iff_eq, List.length_cons, Int.ofNat_eq_natCast]
    split_ifs <;> omega

/-- `buildOptions` truncates: it produces `min 4 texts.length` options. -/
theorem buildOptions_length (ids : Nat → String) (idx : Int) (texts : List String) :
    (buildOptions ids idx texts).length = min 4 texts.length := by
  simp [buildOptions]

/-- The number of options `buildOptions` marks correct: one when the index
is within the produced options, zero otherwise. -/
theorem buildOptions_countCorrect (ids : Nat → String) (idx : Int) (texts : List String) :
    ((buildOptions ids idx texts).filter (fun o => o.is_correct)).length =
      if 0 ≤ idx ∧ idx < Int.ofNat (min 4 texts.length) then 1 else 0 := by
  rw [← List.countP_eq_length_filter]
  unfold buildOptions
  rw [List.countP_map]
  have hc : ((fun o => o.is_correct) ∘ fun p : Nat × String =>
      (⟨ids p.1, p.2, Int.ofNat p.1 == idx⟩ : GenOption)) =
      fun p : Nat × String => Int.ofNat p.1 == idx := rfl
  rw [List.enum, hc, countP_enumFrom_eq_idx, List.length_take]
  simp only [Int.ofNat_eq_natCast]
  split_ifs <;> omega

/-- The option at position `k` is marked correct exactly when `k` equals the
coerced `correct_index`. -/
theorem buildOptions_isCorrect_at (ids : Nat → String) (idx : Int) (texts : List String)
    (k : Nat) (o : GenOption) (h : (buildOptions ids idx texts)[k]? = some o) :
    o.is_correct = (Int.ofNat k == idx) := by
  unfold buildOptions at h
  rw [List.enum, List.getElem?_map, List.getElem?_enumFrom] at h
  cases ht : (texts.take 4)[k]? with
  | none => rw [ht] at h; simp at h
  | some t =>
    rw [ht] at h
    simp at h
    simp [← h]

/-- Counterexample to claim C3: on a question with 2 options and
`correct_index = 5`, both extractors produce 2 options (no padding to 4)
and mark none of them correct (no clamping of the index into [0,3]),
refuting "exactly 4 options" and "exactly one is_correct". -/
theorem extractor_normalization_counterexample :
    (normalize_question "q1" demoOptIds rawBadQuestion).options.length = 2 ∧
    ((normalize_question "q1" demoOptIds rawBadQuestion).options.filter
      (fun o => o.is_correct)).length = 0 ∧
    (regenerate_one_question_langchain true "q2" demoOptIds "S"
      (.ok rawBadQuestion)).toOption.map (fun g => g.options.length) = some 2 ∧
    (regenerate_one_question_langchain true "q2" demoOptIds "S"
      (.ok rawBadQuestion)).toOption.map
        (fun g => (g.options.filter (fun o => o.is_correct)).length) = some 0 := by
  decide

/-- Claim C3 (amended): the extractor truncates each question's option list
to at most 4 entries but does not pad shorter lists, so it produces
`min 4 n` options; `correct_index` is coerced with default 0 only when the
field is missing, with no clamping into [0,3]; option `k` is marked correct
iff `k` equals the coerced index, hence exactly one produced option has
`is_correct = true` when the index lies within the produced options and
none otherwise. The single-question regeneration path applies the same
normalization. -/
theorem extractor_normalization_amended (qid rid skill : String)
    (ids rids : Nat → String) (q : RawQuestion) :
    (normalize_question qid ids q).options.length = min 4 (q.options.getD []).length ∧
    ((normalize_question qid ids q).options.filter (fun o => o.is_correct)).length =
      (if 0 ≤ q.correct_index.getD 0 ∧
          q.correct_index.getD 0 < Int.ofNat (min 4 (q.options.getD []).length)
       then 1 else 0) ∧
    (∀ k o, (normalize_question qid ids q).options[k]? = some o →
      o.is_correct = (Int.ofNat k == q.correct_index.getD 0)) ∧
    regenerate_one_question_langchain true rid rids skill (.ok q) =
      .ok { id := rid, skill_tag := q.skill.getD skill, text := (q.question.getD "").trim,
            options := buildOptions rids (q.correct_index.getD 0) (q.options.getD []),
            explanation := (q.explanation.getD "").trim } := by
  refine ⟨?_, ?_, ?_, rfl⟩
  · exact buildOptions_length ids (q.correct_index.getD 0) (q.options.getD [])
  · exact buildOptions_countCorrect ids (q.correct_index.getD 0) (q.options.getD [])
  · intro k o h
    exact buildOptions_isCorrect_at ids (q.correct_index.getD 0) (q.options.getD []) k o h

/-- Concrete witness for the amended C3 on `rawBadQuestion` (2 options,
index 5): 2 options produced, none marked correct. -/
theorem extractor_normalization_amended_witness :
    (normalize_question "w1" demoOptIds rawBadQuestion).options.length = 2 ∧
    ((normalize_question "w1" demoOptIds rawBadQuestion).options.filter
      (fun o => o.is_correct)).length = 0 := by
  have h := extractor_normalization_amended "w1" "w2" "S" demoOptIds demoOptIds rawBadQuestion
  refine ⟨?_, ?_⟩
  · have h1 := h.1
    simpa [rawBadQuestion] using h1
  · have h2 := h.2.1
    simpa [rawBadQuestion] using h2

/-- With pairwise-distinct keys, `find?` by an element's own key returns
that element. -/
theorem find?_eq_of_nodup_mem {α β : Type} (g : α → β) (l : List α) (a : α)
    (hnd : (l.map g).Nodup) (ha : a ∈ l) (p : α → Bool)
    (hp : ∀ x, p x = true ↔ g x = g a) :
    l.find? p = some a := by
  induction l with
  | nil => simp at ha
  | cons x xs ih =>
    rw [List.map_cons, List.nodup_cons] at hnd
    rcases List.mem_cons.mp ha with rfl | hmem
    · exact List.find?_cons_of_pos _ ((hp a).mpr rfl)
    · have hx : ¬ p x = true := by
        intro hc
        exact hnd.1 (((hp x).mp hc) ▸ List.mem_map_of_mem g hmem)
      rw [List.find?_cons_of_neg _ hx]
      exact ih hnd.2 hmem

/-- Claim C7: a start call succeeds only when its (nonempty) token names a
currently-valid invite — an unknown or invalid token yields 404 with no
state change — and a successful start creates a new in-progress attempt
and increments the invite's `used_count` exactly when the invite has a
positive `max_uses` (so a retried start on the same capped token consumes
another use), leaving `used_count` alone when `max_uses = 0`. -/
theorem start_attempt_spec (now : Int) (newId token : String) (email : Option String)
    (s : Store)
    (htok : token ≠ "")
    (hids : (s.invites.map (fun i => i.id)).Nodup) :
    (s.invites.find? (fun i => i.token == token) = none →
      start_attempt now newId token email s = (.error 404 "invalid token", s)) ∧
    (∀ inv, s.invites.find? (fun i => i.token == token) = some inv →
      (invite_is_valid now inv = false →
        start_attempt now newId token email s = (.error 404 "invalid token", s)) ∧
      (∀ qcm, invite_is_valid now inv = true →
        s.qcms.find? (fun q => q.id == inv.qcm_id) = some qcm →
        (start_attempt now newId token email s).1 =
          .ok newId qcm.id qcm.language
            ((qcmQuestions s qcm.id).map (publicQuestionOf s)) ∧
        (start_attempt now newId token email s).2.attempts =
          s.attempts ++ [newAttempt newId qcm.id inv.id email now] ∧
        (0 < inv.max_uses →
          (start_attempt now newId token email s).2.invites.find?
              (fun i => i.id == inv.id) = some (bumpUse inv)) ∧
        (inv.max_uses = 0 →
          (start_attempt now newId token email s).2.invites = s.invites))) := by
  constructor
  · intro hnone
    unfold start_attempt
    rw [hnone]
    simp [htok]
  · intro inv hinv
    constructor
    · intro hbad
      unfold start_attempt
      rw [hinv]
      simp [htok, hbad]
    · intro qcm hval hq
      have hmem : inv ∈ s.invites := List.mem_of_find?_eq_some hinv
      have hrun : start_attempt now newId token email s =
          (.ok newId qcm.id qcm.language
            ((qcmQuestions s qcm.id).map (publicQuestionOf s)),
           { s with attempts := s.attempts ++ [newAttempt newId qcm.id inv.id email now],
                    invites := if inv.max_uses > 0 then updateFirst (fun i => i.id == inv.id) bumpUse s.invites else s.invites }) := by
        unfold start_attempt
        rw [hinv]
        simp [htok, hval, hq]
      have hp : ∀ x : Invite, ((fun i => i.id == inv.id) x = true) ↔ x.id = inv.id := by
        intro x
        simp
      refine ⟨by rw [hrun], by rw [hrun], ?_, ?_⟩
      · intro hpos
        rw [hrun]
        simp only [hpos, gt_iff_lt, if_pos]
        have hfindid : s.invites.find? (fun i => i.id == inv.id) = some inv :=
          find?_eq_of_nodup_mem (fun i => i.id) s.invites inv hids hmem _ hp
        exact find?_updateFirst (fun i => i.id == inv.id) bumpUse s.invites inv
          hfindid (by simp [bumpUse])
      · intro hzero
        rw [hrun]
        simp [hzero]

/-- Concrete witness for C7: starting on the capped demo invite (max 2
uses, 0 used) succeeds and bumps its used_count to 1. -/
theorem start_attempt_spec_witness :
    (start_attempt 5 "a2" "tok2" none demoStore).1 =
      .ok "a2" "qc1" "en" ((qcmQuestions demoStore "qc1").map (publicQuestionOf demoStore)) ∧
    (start_attempt 5 "a2" "tok2" none demoStore).2.invites.find?
        (fun i => i.id == "inv2") = some (bumpUse demoInviteCapped) := by
  have h := start_attempt_spec 5 "a2" "tok2" none demoStore (by decide) (by decide)
  have h2 := (h.2 demoInviteCapped (by decide)).2 demoQcmPublished (by decide) (by decide)
  exact ⟨h2.1, h2.2.2.1 (by decide)⟩

/-- Claim C8: when the generation step fails (LLM package or key missing,
chain call failure) or extraction yields zero questions, the generator
raises, and `create_draft_from_jd` turns any raised generation error into a
502 response with the store exactly unchanged — no Qcm, Question or Option
row is persisted. -/
theorem create_draft_from_jd_failure_spec (jd language qcmId e : String) (s : Store)
    (qIds : Nat → String) (optIds : Nat → Nat → String) (d : RawGen)
    (hjd : jd ≠ "") :
    generate_qcm_from_jd_langchain false qIds optIds (.ok d) =
      .error "LangChain/OpenAI not available or OPENAI_API_KEY missing" ∧
    generate_qcm_from_jd_langchain true qIds optIds (.error e) = .error e ∧
    (d.questions = [] →
      generate_qcm_from_jd_langchain true qIds optIds (.ok d) =
        .error "Model returned no questions") ∧
    create_draft_from_jd jd language qcmId (.error e) s =
      (.error 502 "LANGCHAIN_GENERATION_FAILED" e, s) := by
  refine ⟨rfl, rfl, ?_, ?_⟩
  · intro hq
    simp [generate_qcm_from_jd_langchain, hq]
  · simp [create_draft_from_jd, hjd]

/-- Concrete witness for C8: create_draft_from_jd on a failed generation
returns 502 and hands back the demo store untouched. -/
theorem create_draft_from_jd_failure_spec_witness :
    create_draft_from_jd "jd" "en" "qx" (.error "boom") demoStore =
      (.error 502 "LANGCHAIN_GENERATION_FAILED" "boom", demoStore) := by
  have h := create_draft_from_jd_failure_spec "jd" "en" "qx" "boom" demoStore
    demoOptIds (fun _ => demoOptIds) { skills := none, questions := [] } (by decide)
  exact h.2.2.2

/-- Claim C10: the only invite-creating operation is publish, whose invite
has `max_uses = 0` (unlimited) and an expiry exactly 30 days after the
publish time; every other handler leaves the invite table untouched; hence
on any store whose invites are all backend-created (uncapped), the use-cap
branch of start is unreachable and start never changes any `used_count`. -/
theorem backend_invites_uncapped_spec (now : Int) (sec iid fe qcm_id : String)
    (jd lang qcmId nid aid qid oid qid2 tok : String) (email : Option String)
    (gen : Except String (List String × List GenQuestion))
    (gen2 : Except String GenQuestion) (s : Store)
    (hinv : invitesUncapped s) :
    (∀ qcm, s.qcms.find? (fun q => q.id == qcm_id) = some qcm → qcm.status = "draft" →
      (publish_qcm now sec iid fe qcm_id s).2.invites =
        s.invites ++ [publishInvite now iid qcm.id (make_share_token sec qcm.id)]) ∧
    invitesUncapped (publish_qcm now sec iid fe qcm_id s).2 ∧
    (create_draft_from_jd jd lang qcmId gen s).2.invites = s.invites ∧
    (regenerate_question qcm_id qid2 gen2 s).2.invites = s.invites ∧
    (save_answer nid aid qid oid s).2.invites = s.invites ∧
    (finish_attempt now aid s).2.invites = s.invites ∧
    (start_attempt now nid tok email s).2.invites = s.invites := by
  refine ⟨?_, ?_, ?_, ?_, ?_, ?_, ?_⟩
  · intro qcm hfind hdraft
    unfold publish_qcm
    rw [hfind]
    simp [hdraft]
  · unfold invitesUncapped
    by_cases hne : ∃ qcm, s.qcms.find? (fun q => q.id == qcm_id) = some qcm ∧
      qcm.status = "draft"
    · rcases hne with ⟨qcm, hfind, hdraft⟩
      have heq : (publish_qcm now sec iid fe qcm_id s).2.invites =
          s.invites ++ [publishInvite now iid qcm.id (make_share_token sec qcm.id)] := by
        unfold publish_qcm
        rw [hfind]
        simp [hdraft]
      rw [heq]
      intro i hi
      rcases List.mem_append.mp hi with hi | hi
      · exact hinv i hi
      · rw [List.mem_singleton.mp hi]
        rfl
    · have heq : (publish_qcm now sec iid fe qcm_id s).2 = s := by
        unfold publish_qcm
        cases hfind : s.qcms.find? (fun q => q.id == qcm_id) with
        | none => rfl
        | some qcm =>
          have hnd : qcm.status ≠ "draft" := fun hc => hne ⟨qcm, hfind, hc⟩
          simp [hnd]
      rw [heq]
      exact hinv
  · unfold create_draft_from_jd
    split
    · rfl
    · split
      · rfl
      · rfl
  · unfold regenerate_question
    split
    · rfl
    · split
      · rfl
      · split
        · rfl
        · split
          · rfl
          · rfl
  · unfold save_answer
    split
    · rfl
    · split
      · rfl
      · split
        · rfl
        · split
          · rfl
          · split
            · rfl
            · split
              · rfl
              · split
                · rfl
                · rfl
  · unfold finish_attempt
    split
    · rfl
    · split
      · rfl
      · split
        · rfl
        · rfl
  · unfold start_attempt
    split
    · rfl
    · split
      · rfl
      · next inv heq =>
        split
        · rfl
        · split
          · rfl
          · have hz : inv.max_uses = 0 := hinv inv (List.mem_of_find?_eq_some heq)
            simp [hz]

/-- Concrete witness for C10 on a store with only uncapped invites. -/
theorem backend_invites_uncapped_spec_witness :
    (publish_qcm 0 "s" "i9" "f" "qc1" demoStoreDraft).2.invites =
      demoStoreDraft.invites ++ [publishInvite 0 "i9" "qc1" (make_share_token "s" "qc1")] ∧
    (start_attempt 5 "a9" "tok1" none demoStoreUncapped).2.invites =
      demoStoreUncapped.invites := by
  constructor
  · have h := backend_invites_uncapped_spec 0 "s" "i9" "f" "qc1" "jd" "en" "q"
      "n" "a" "q" "o" "q" "tok1" none (.error "e") (.error "e") demoStoreDraft
      (by unfold invitesUncapped; decide)
    exact h.1 demoQcmDraft (by decide) (by decide)
  · have h := backend_invites_uncapped_spec 5 "s" "i9" "f" "qc1" "jd" "en" "q"
      "a9" "a" "q" "o" "q" "tok1" none (.error "e") (.error "e") demoStoreUncapped
      (by unfold invitesUncapped; decide)
    exact h.2.2.2.2.2.2

/-- Updating elements preserves any projection the update leaves fixed. -/
theorem map_updateFirst_eq {α β : Type} (p : α → Bool) (f : α → α) (g : α → β)
    (hg : ∀ a, g (f a) = g a) (l : List α) :
    (updateFirst p f l).map g = l.map g := by
  induction l with
  | nil => rfl
  | cons x xs ih =>
    by_cases hx : p x <;> simp [updateFirst, hx, hg, ih]

/-- If `find?` misses, `filter` is empty. -/
theorem filter_eq_nil_of_find?_none {α : Type} (p : α → Bool) (l : List α)
    (h : l.find? p = none) : l.filter p = [] := by
  rw [List.filter_eq_nil_iff]
  intro a ha
  have := List.find?_eq_none.mp h a ha
  simpa using this

/-- A key that `find?` misses is not among the mapped keys. -/
theorem not_mem_map_of_find?_none {α β : Type} (p : α → Bool) (g : α → β) (c : β)
    (hp : ∀ a, g a = c → p a = true) (l : List α) (h : l.find? p = none) :
    c ∉ l.map g := by
  intro hc
  rcases List.mem_map.mp hc with ⟨a, ha, hga⟩
  have hfalse := List.find?_eq_none.mp h a ha
  exact hfalse (hp a hga)

/-- Under unique keys, filtering by the key after updating the first (and
only) match yields exactly the updated row. -/
theorem filter_updateFirst_of_nodup {α β : Type} (p : α → Bool) (g : α → β)
    (c : β) (hp : ∀ a, p a = true ↔ g a = c) (f : α → α) (hpf : ∀ a, p (f a) = p a)
    (l : List α) (hnd : (l.map g).Nodup) (a0 : α) (h : l.find? p = some a0) :
    (updateFirst p f l).filter p = [f a0] := by
  induction l with
  | nil => simp at h
  | cons x xs ih =>
    rw [List.map_cons, List.nodup_cons] at hnd
    by_cases hx : p x = true
    · rw [List.find?_cons_of_pos _ hx] at h
      injection h with hxa
      subst hxa
      have hfx : p (f x) = true := by rw [hpf]; exact hx
      have hup : updateFirst p f (x :: xs) = f x :: xs := by
        simp only [updateFirst]
        rw [if_pos hx]
      have hxs : xs.filter p = [] := by
        rw [List.filter_eq_nil_iff]
        intro b hb hpb
        have hgb : g b = c := (hp b).mp hpb
        have hgx : g x = c := (hp x).mp hx
        exact hnd.1 (by rw [hgx, ← hgb]; exact List.mem_map_of_mem g hb)
      rw [hup, List.filter_cons, if_pos hfx, hxs]
    · rw [List.find?_cons_of_neg _ hx] at h
      have hup : updateFirst p f (x :: xs) = x :: updateFirst p f xs := by
        simp only [updateFirst]
        rw [if_neg hx]
      rw [hup, List.filter_cons, if_neg hx]
      exact ih hnd.2 h

/-- Claim C6: a successful answer save on an in-progress attempt upserts —
given at most one answer row per (attempt, question) pair, after the call
there is exactly one row for that pair, carrying the option of this latest
call with its correctness recomputed from that option's is-correct flag;
the uniqueness invariant is preserved, so a sequence of saves on the same
question overwrites rather than duplicates. -/
theorem save_answer_upsert (newId aid qid oid : String) (s : Store)
    (hnd : answerKeysNodup s)
    (hsucc : (save_answer newId aid qid oid s).1 = .saved) :
    answerKeysNodup (save_answer newId aid qid oid s).2 ∧
    ((save_answer newId aid qid oid s).2.answers.filter
        (fun a => a.attempt_id == aid && a.question_id == qid)).map
      (fun a => (a.option_id, a.correct)) =
      ((s.options.find? (fun o => o.id == oid)).map
        (fun o => (o.id, o.is_correct))).toList := by
  by_cases h0 : qid = "" ∨ oid = ""
  · unfold save_answer at hsucc
    simp [h0] at hsucc
  cases hatt : s.attempts.find? (fun a => a.id == aid) with
  | none =>
    unfold save_answer at hsucc
    simp [h0, hatt] at hsucc
  | some att =>
  cases hfin : att.finished_at with
  | some t =>
    unfold save_answer at hsucc
    simp [h0, hatt, hfin] at hsucc
  | none =>
  cases hques : s.questions.find? (fun q => q.id == qid) with
  | none =>
    unfold save_answer at hsucc
    simp [h0, hatt, hfin, hques] at hsucc
  | some q =>
  by_cases hqcm : q.qcm_id = att.qcm_id
  case neg =>
    unfold save_answer at hsucc
    simp [h0, hatt, hfin, hques, hqcm] at hsucc
  cases hopt : s.options.find? (fun o => o.id == oid) with
  | none =>
    unfold save_answer at hsucc
    simp [h0, hatt, hfin, hques, hqcm, hopt] at hsucc
  | some opt =>
  by_cases hoq : opt.question_id = q.id
  case neg =>
    unfold save_answer at hsucc
    simp [h0, hatt, hfin, hques, hqcm, hopt, hoq] at hsucc
  have haid : att.id = aid := by simpa using List.find?_some hatt
  have hqid : q.id = qid := by simpa using List.find?_some hques
  have hp : ∀ a : Answer,
      ((fun a => a.attempt_id == att.id && a.question_id == q.id) a = true) ↔
        (fun a => (a.attempt_id, a.question_id)) a = (att.id, q.id) := by
    intro a
    simp [Prod.ext_iff]
  subst haid
  subst hqid
  have hnd' : (s.answers.map (fun a => (a.attempt_id, a.question_id))).Nodup := hnd
  cases hfound : s.answers.find?
      (fun a => a.attempt_id == att.id && a.question_id == q.id) with
  | some a0 =>
    have hrun : save_answer newId att.id q.id oid s =
        (.saved, { s with answers := updateFirst (fun a => a.attempt_id == att.id && a.question_id == q.id) (setAnswerChoice opt.id opt.is_correct) s.answers }) := by
      unfold save_answer
      simp [h0, hatt, hfin, hques, hqcm, hopt, hoq, hfound]
    rw [hrun]
    dsimp only
    constructor
    · unfold answerKeysNodup
      dsimp only
      rw [map_updateFirst_eq (fun a => a.attempt_id == att.id && a.question_id == q.id)
        (setAnswerChoice opt.id opt.is_correct)
        (fun a => (a.attempt_id, a.question_id)) (fun a => rfl) s.answers]
      exact hnd
    · rw [filter_updateFirst_of_nodup
        (fun a => a.attempt_id == att.id && a.question_id == q.id)
        (fun a => (a.attempt_id, a.question_id))
        (att.id, q.id) hp (setAnswerChoice opt.id opt.is_correct) (fun a => rfl)
        s.answers hnd' a0 hfound]
      rfl
  | none =>
    have hrun : save_answer newId att.id q.id oid s =
        (.saved, { s with answers := s.answers ++ [newAnswerRow newId att.id q.id opt.id opt.is_correct] }) := by
      unfold save_answer
      simp [h0, hatt, hfin, hques, hqcm, hopt, hoq, hfound]
    rw [hrun]
    dsimp only
    constructor
    · unfold answerKeysNodup
      dsimp only
      rw [List.map_append]
      rw [List.nodup_append]
      refine ⟨hnd, by simp, ?_⟩
      intro b hb hb2
      simp only [List.map_cons, List.map_nil, List.mem_singleton] at hb2
      rw [hb2] at hb
      exact not_mem_map_of_find?_none _ (fun a => (a.attempt_id, a.question_id))
        (att.id, q.id) (fun a ha => (hp a).mpr ha) s.answers hfound hb
    · rw [List.filter_append]
      rw [filter_eq_nil_of_find?_none _ _ hfound]
      simp [newAnswerRow]

/-- Concrete witness for C6: re-answering question q0 of the demo attempt
with the wrong option q0B overwrites the previous (correct) answer row,
leaving exactly one row for the pair, now (q0B, false). -/
theorem save_answer_upsert_witness :
    answerKeysNodup (save_answer "n1" "a1" "q0" "q0B" demoStore).2 ∧
    ((save_answer "n1" "a1" "q0" "q0B" demoStore).2.answers.filter
        (fun a => a.attempt_id == "a1" && a.question_id == "q0")).map
      (fun a => (a.option_id, a.correct)) =
      ((demoStore.options.find? (fun o => o.id == "q0B")).map
        (fun o => (o.id, o.is_correct))).toList :=
  save_answer_upsert "n1" "a1" "q0" "q0B" demoStore
    (by unfold answerKeysNodup; decide) (by decide)

/-- `find?` with a predicate that factors through a map commutes with it. -/
theorem find?_map_factor {α β : Type} (g : α → β) (p : α → Bool) (q : β → Bool)
    (hp : ∀ a, q (g a) = p a) (l : List α) :
    (l.map g).find? q = (l.find? p).map g := by
  induction l with
  | nil => rfl
  | cons a t ih =>
    by_cases hpa : p a = true
    · rw [List.map_cons, List.find?_cons_of_pos _ (by rw [hp]; exact hpa),
        List.find?_cons_of_pos _ hpa]
      rfl
    · rw [List.map_cons, List.find?_cons_of_neg _ (by rw [hp]; simpa using hpa),
        List.find?_cons_of_neg _ hpa, ih]

/-- `filter` with a predicate that factors through a map commutes with it. -/
theorem filter_map_factor {α β : Type} (g : α → β) (p : α → Bool) (q : β → Bool)
    (hp : ∀ a, q (g a) = p a) (l : List α) :
    (l.map g).filter q = (l.filter p).map g := by
  induction l with
  | nil => rfl
  | cons a t ih =>
    by_cases hpa : p a = true <;>
      simp [List.filter_cons, hp, hpa, ih]

/-- `updateFirst` commutes with a map when both the predicate and the
update factor through it. -/
theorem updateFirst_map_factor {α β : Type} (g : α → β) (p : α → Bool) (q : β → Bool)
    (hp : ∀ a, q (g a) = p a) (f : α → α) (f' : β → β)
    (hf : ∀ a, g (f a) = f' (g a)) (l : List α) :
    updateFirst q f' (l.map g) = (updateFirst p f l).map g := by
  induction l with
  | nil => rfl
  | cons a t ih =>
    by_cases hpa : p a = true <;>
      simp [updateFirst, hp, hpa, hf, ih]

/-- The candidate-visible projection of an option ignores the erased flag. -/
theorem questionOptions_erase (s : Store) (qid : String) :
    (questionOptions (eraseStore s) qid).map publicOptionOf =
      (questionOptions s qid).map publicOptionOf := by
  unfold questionOptions eraseStore
  dsimp only
  rw [filter_map_factor eraseOption (fun o => o.question_id == qid)
    (fun o => o.question_id == qid) (fun o => rfl) s.options]
  rw [List.map_map]
  exact List.map_congr_left (fun a _ => rfl)

/-- The candidate-visible projection of a question is erasure-invariant. -/
theorem publicQuestionOf_erase (s : Store) (q : Question) :
    publicQuestionOf (eraseStore s) q = publicQuestionOf s q := by
  unfold publicQuestionOf
  rw [questionOptions_erase]

/-- `GET /public/qcm/{token}` is erasure-invariant: its whole response is
computed from the erased store. -/
theorem get_public_qcm_erase (now : Int) (token : String) (s : Store) :
    get_public_qcm now token (eraseStore s) = get_public_qcm now token s := by
  have hqq : ∀ qid, qcmQuestions (eraseStore s) qid = qcmQuestions s qid :=
    fun _ => rfl
  unfold get_public_qcm
  dsimp only [eraseStore]
  cases hfind : s.invites.find? (fun i => i.token == token) with
  | none => rfl
  | some inv =>
    by_cases hval : invite_is_valid now inv
    · simp only [hval, Bool.not_true, Bool.false_eq_true, if_false]
      cases hq : s.qcms.find? (fun q => q.id == inv.qcm_id) with
      | none => rfl
      | some qcm =>
        have hpq : (qcmQuestions (eraseStore s) qcm.id).map (publicQuestionOf (eraseStore s)) =
            (qcmQuestions s qcm.id).map (publicQuestionOf s) := by
          rw [hqq]
          exact List.map_congr_left (fun q _ => publicQuestionOf_erase s q)
        dsimp only [eraseStore] at hpq
        simp only [hpq]
    · simp [hval]

/-- `POST /attempts/start` commutes with erasure: the response is computed
from the erased store, and the state change erases to the same store. -/
theorem start_attempt_erase (now : Int) (newId token : String)
    (email : Option String) (s : Store) :
    (start_attempt now newId token email (eraseStore s)).1 =
      (start_attempt now newId token email s).1 ∧
    (start_attempt now newId token email (eraseStore s)).2 =
      eraseStore (start_attempt now newId token email s).2 := by
  have hqq : ∀ qid, qcmQuestions (eraseStore s) qid = qcmQuestions s qid :=
    fun _ => rfl
  unfold start_attempt
  by_cases htok : token = ""
  · simp [htok]
  simp only [htok, if_false]
  dsimp only [eraseStore]
  cases hfind : s.invites.find? (fun i => i.token == token) with
  | none => exact ⟨rfl, rfl⟩
  | some inv =>
    by_cases hval : invite_is_valid now inv
    · simp only [hval, Bool.not_true, Bool.false_eq_true, if_false]
      cases hq : s.qcms.find? (fun q => q.id == inv.qcm_id) with
      | none => exact ⟨rfl, rfl⟩
      | some qcm =>
        have hpq : (qcmQuestions (eraseStore s) qcm.id).map (publicQuestionOf (eraseStore s)) =
            (qcmQuestions s qcm.id).map (publicQuestionOf s) := by
          rw [hqq]
          exact List.map_congr_left (fun q _ => publicQuestionOf_erase s q)
        dsimp only [eraseStore] at hpq
        constructor
        · dsimp only
          rw [hpq]
        · dsimp only [eraseStore]
    · simp [hval]

/-- `POST /attempts/{id}/answer` commutes with erasure: same response, and
the updated store erases to the same store (the stored correctness flag is
itself erased). -/
theorem save_answer_erase (newId aid qid oid : String) (s : Store) :
    (save_answer newId aid qid oid (eraseStore s)).1 =
      (save_answer newId aid qid oid s).1 ∧
    (save_answer newId aid qid oid (eraseStore s)).2 =
      eraseStore (save_answer newId aid qid oid s).2 := by
  unfold save_answer
  by_cases h0 : qid = "" ∨ oid = ""
  · simp [h0]
  simp only [h0, if_false]
  dsimp only [eraseStore]
  cases hatt : s.attempts.find? (fun a => a.id == aid) with
  | none => exact ⟨rfl, rfl⟩
  | some att =>
  by_cases hfin : att.finished_at.isSome
  · simp [hfin]
  simp only [hfin, Bool.false_eq_true, if_false]
  cases hques : s.questions.find? (fun q => q.id == qid) with
  | none => exact ⟨rfl, rfl⟩
  | some q =>
  by_cases hqcm : q.qcm_id ≠ att.qcm_id
  · simp [hqcm]
  simp only [hqcm, if_false]
  rw [find?_map_factor eraseOption (fun o => o.id == oid) (fun o => o.id == oid)
    (fun o => rfl) s.options]
  cases hopt : s.options.find? (fun o => o.id == oid) with
  | none => exact ⟨rfl, rfl⟩
  | some opt =>
  simp only [Option.map_some']
  by_cases hoq : (eraseOption opt).question_id ≠ q.id
  · have hoq' : opt.question_id ≠ q.id := hoq
    simp [hoq, hoq']
  have hoq2 : ¬ opt.question_id ≠ q.id := hoq
  simp only [hoq, hoq2, if_false]
  rw [find?_map_factor eraseAnswer
    (fun a => a.attempt_id == att.id && a.question_id == q.id)
    (fun a => a.attempt_id == att.id && a.question_id == q.id)
    (fun a => rfl) s.answers]
  cases hfound : s.answers.find?
      (fun a => a.attempt_id == att.id && a.question_id == q.id) with
  | some a0 =>
    simp only [Option.map_some', Option.isSome_some, if_true]
    refine ⟨trivial, ?_⟩
    dsimp only [eraseStore]
    rw [updateFirst_map_factor eraseAnswer
      (fun a => a.attempt_id == att.id && a.question_id == q.id)
      (fun a => a.attempt_id == att.id && a.question_id == q.id)
      (fun a => rfl)
      (setAnswerChoice opt.id opt.is_correct)
      (setAnswerChoice (eraseOption opt).id (eraseOption opt).is_correct)
      (fun a => rfl) s.answers]
  | none =>
    simp only [Option.map_none', Option.isSome_none, Bool.false_eq_true, if_false]
    refine ⟨trivial, ?_⟩
    dsimp only [eraseStore]
    rw [List.map_append]
    rfl

/-- Claim C9: no candidate-facing operation leaks option correctness or
explanations. The public quiz fetch, attempt start and answer save have
(by their response types) no is-correct or explanation field, and for any
two stores differing only in which options are marked correct (equal
erasures), the responses are identical — the answer save returns only a
saved confirmation — and the state changes have identical erasures. -/
theorem candidate_noninterference (now : Int) (newId token : String)
    (email : Option String) (nid aid qid oid : String) (s1 s2 : Store)
    (h : eraseStore s1 = eraseStore s2) :
    get_public_qcm now token s1 = get_public_qcm now token s2 ∧
    (start_attempt now newId token email s1).1 =
      (start_attempt now newId token email s2).1 ∧
    eraseStore (start_attempt now newId token email s1).2 =
      eraseStore (start_attempt now newId token email s2).2 ∧
    (save_answer nid aid qid oid s1).1 = (save_answer nid aid qid oid s2).1 ∧
    eraseStore (save_answer nid aid qid oid s1).2 =
      eraseStore (save_answer nid aid qid oid s2).2 := by
  refine ⟨?_, ?_, ?_, ?_, ?_⟩
  · rw [← get_public_qcm_erase now token s1, h, get_public_qcm_erase]
  · rw [← (start_attempt_erase now newId token email s1).1, h,
      (start_attempt_erase now newId token email s2).1]
  · rw [← (start_attempt_erase now newId token email s1).2, h,
      (start_attempt_erase now newId token email s2).2]
  · rw [← (save_answer_erase nid aid qid oid s1).1, h,
      (save_answer_erase nid aid qid oid s2).1]
  · rw [← (save_answer_erase nid aid qid oid s1).2, h,
      (save_answer_erase nid aid qid oid s2).2]

/-- Concrete witness for C9: the demo store and its correctness-flipped
twin produce identical public payloads and identical answer-save
responses. -/
theorem candidate_noninterference_witness :
    get_public_qcm 100 "tok1" demoStore = get_public_qcm 100 "tok1" demoStoreFlipped ∧
    (save_answer "n1" "a1" "q0" "q0B" demoStore).1 =
      (save_answer "n1" "a1" "q0" "q0B" demoStoreFlipped).1 := by
  have h := candidate_noninterference 100 "a2" "tok1" none "n1" "a1" "q0" "q0B"
    demoStore demoStoreFlipped (by decide)
  exact ⟨h.1, h.2.2.2.1⟩

end Ismns
